import Mathlib

/-!
Verification of the EDA analysis functions of the SmartEDA platform
(`src/utils/fileProcessing.ts`), as a shallow embedding in Lean 4.

JavaScript values appearing in parsed datasets are modelled by `JSValue`:
finite numbers carry an exact rational (exact-arithmetic idealisation of
IEEE doubles), `NaN` is a separate constructor (it has `typeof "number"`
but fails `!isNaN`), and `null` / `undefined` / strings / booleans are
explicit.  A row of the dataset is an association list from column names
to values; a lookup of an absent key yields `undefined`, as in JS.
-/

/-- A JavaScript value as it can occur in a parsed dataset cell. -/
inductive JSValue where
  | num (q : ℚ)
  | nan
  | str (s : String)
  | boolean (b : Bool)
  | null
  | undef
  deriving DecidableEq, Repr

/-- A parsed row: an object mapping column names to values. -/
abbrev Row : Type := List (String × JSValue)

/-- Object property access `row[col]`: `undefined` when the key is absent. -/
def rowGet (r : Row) (c : String) : JSValue :=
  match List.find? (fun p => p.1 == c) r with
  | some p => p.2
  | none => JSValue.undef

/-- The missing-value test used throughout `fileProcessing.ts`:
`val === null || val === undefined || val === ''`. -/
def isMissing (v : JSValue) : Bool :=
  v == JSValue.null || v == JSValue.undef || v == JSValue.str ""

/-- The JS test `typeof v === 'number'`; `NaN` is of type number. -/
def isNumberType (v : JSValue) : Bool :=
  match v with
  | JSValue.num _ => true
  | JSValue.nan => true
  | _ => false

/-- The sample used for dtype inference in `parseCSV` / `parseExcel`
(lines 30-31 / 115-116): values of the column over the first 100 rows,
with `null`, `undefined` and `''` filtered out. -/
def sampleValues (data : List Row) (col : String) : List JSValue :=
  ((data.take 100).map (fun r => rowGet r col)).filter (fun v => !isMissing v)

/-- Dtype inference of `parseCSV` / `parseExcel` (lines 32-37 / 117-122):
if the sample is non-empty, the column is `numeric` when the FIRST sampled
value has JS type number, else `categorical`; an empty sample defaults to
`categorical`. -/
def inferDtype (data : List Row) (col : String) : String :=
  match sampleValues data col with
  | [] => "categorical"
  | v :: _ => if isNumberType v then "numeric" else "categorical"

/-- Per-column missing count (lines 40-42 / 125-127): the number of rows
whose value in the column is `null`, `undefined` or `''`. -/
def missingCount (data : List Row) (col : String) : Nat :=
  (data.filter (fun r => isMissing (rowGet r col))).length

/-- The aggregate `missingValues` accumulator: the per-column missing
counts summed over all columns. -/
def totalMissing (data : List Row) (columns : List String) : Nat :=
  (columns.map (fun c => missingCount data c)).sum

/-- The result object resolved by `parseCSV` / `parseExcel`. -/
structure DatasetInfo where
  data : List Row
  columns : List String
  shape : Nat × Nat
  dtypes : List (String × String)
  missingValues : Nat

/-- The dataset-info construction of `parseCSV` (lines 26-51) and
`parseExcel` (lines 111-136), given the parsed rows and header columns:
`shape` is `(data.length, columns.length)`, `dtypes` maps each column to
its inferred dtype, `missingValues` is the aggregate missing count. -/
def parseResult (data : List Row) (columns : List String) : DatasetInfo :=
  { data := data
    columns := columns
    shape := (data.length, columns.length)
    dtypes := columns.map (fun c => (c, inferDtype data c))
    missingValues := totalMissing data columns }

/-- The filter of `calculateStatistics` (line 163): the column's values
that satisfy `typeof val === 'number' && !isNaN(val)`, i.e. exactly the
finite numbers. -/
def numericValues (data : List Row) (column : String) : List ℚ :=
  data.filterMap (fun r =>
    match rowGet r column with
    | JSValue.num q => some q
    | _ => none)

/-- The statistics object returned by `calculateStatistics`. -/
structure Stats where
  count : Nat
  mean : ℚ
  median : ℚ
  min : ℚ
  max : ℚ
  std : ℝ

/-- `calculateStatistics` (lines 162-179): over the finite numeric values
of the column, returns `null` when there are none, else the count, mean,
`sorted[floor(n/2)]` as median, `sorted[0]` / `sorted[n-1]` as min / max,
and the square root of the mean squared deviation as std.  The in-place
numeric-comparator `sort` is modelled by `insertionSort (· ≤ ·)`. -/
noncomputable def calculateStatistics (data : List Row) (column : String) :
    Option Stats :=
  let values := numericValues data column
  if values.length = 0 then none
  else
    let sorted := values.insertionSort (· ≤ ·)
    let sum := values.sum
    let mean := sum / (values.length : ℚ)
    some
      { count := values.length
        mean := mean
        median := sorted.getD (sorted.length / 2) 0
        min := sorted.getD 0 0
        max := sorted.getD (sorted.length - 1) 0
        std := Real.sqrt
          (((values.map (fun v => (v - mean) ^ 2)).sum / (values.length : ℚ) : ℚ)) }

/-- `getUniqueCount` (lines 184-187): the size of the `Set` of the
column's non-missing values, i.e. the number of distinct such values. -/
def getUniqueCount (data : List Row) (column : String) : Nat :=
  (((data.map (fun r => rowGet r column)).filter (fun v => !isMissing v)).dedup).length

/-- The complete numeric pairs of `calculateCorrelation` (lines 193-195):
rows where both columns hold a finite number. -/
def pairsOf (data : List Row) (col1 col2 : String) : List (ℚ × ℚ) :=
  data.filterMap (fun r =>
    match rowGet r col1, rowGet r col2 with
    | JSValue.num a, JSValue.num b => some (a, b)
    | _, _ => none)

/-- `calculateCorrelation` (lines 192-210): Pearson correlation over the
complete numeric pairs, returning `0` when fewer than two pairs exist and
`0` when the denominator `Math.sqrt(...)` is zero. -/
noncomputable def calculateCorrelation (data : List Row) (col1 col2 : String) : ℝ :=
  let ps := pairsOf data col1 col2
  if ps.length < 2 then 0
  else
    let n : ℚ := ps.length
    let sum1 := (ps.map (fun p => p.1)).sum
    let sum2 := (ps.map (fun p => p.2)).sum
    let sum1Sq := (ps.map (fun p => p.1 * p.1)).sum
    let sum2Sq := (ps.map (fun p => p.2 * p.2)).sum
    let pSum := (ps.map (fun p => p.1 * p.2)).sum
    let numer := pSum - sum1 * sum2 / n
    let den := Real.sqrt
      (((sum1Sq - sum1 * sum1 / n) * (sum2Sq - sum2 * sum2 / n) : ℚ))
    if den = 0 then 0 else (numer : ℝ) / den

/-- The 50th percentile of a list of values, following the spec's words
(section 4.2, "25/50/75th percentiles"): the middle element of the sorted
values for an odd count, the average of the two middle elements for an
even count.  This is the comparison definition for the median claim; it
is written from the spec, not from the source. -/
def median50Spec (l : List ℚ) : ℚ :=
  let s := l.insertionSort (· ≤ ·)
  if l.length % 2 = 1 then s.getD (l.length / 2) 0
  else (s.getD (l.length / 2 - 1) 0 + s.getD (l.length / 2) 0) / 2

/-! Concrete datasets used by counterexamples and witnesses. -/

/-- Two rows; column `a` is constant `5`, column `b` takes values `1, 2`. -/
def zeroVarData : List Row :=
  [[("a", JSValue.num 5), ("b", JSValue.num 1)],
   [("a", JSValue.num 5), ("b", JSValue.num 2)]]

/-- Two rows whose column `x` holds the number `1` and then the string `a`. -/
def mixedColData : List Row :=
  [[("x", JSValue.num 1)], [("x", JSValue.str "a")]]

/-- Two rows whose column `x` holds the numbers `1` and `2`. -/
def twoNumData : List Row :=
  [[("x", JSValue.num 1)], [("x", JSValue.num 2)]]

/-- One row whose column `x` is `null`. -/
def allNullData : List Row :=
  [[("x", JSValue.null)]]

/-- A row whose column `x` is the number `1`. -/
def numRow : Row := [("x", JSValue.num 1)]

/-- A row whose column `x` is the string `a`. -/
def strRow : Row := [("x", JSValue.str "a")]

/-- 100 numeric rows followed by one extra numeric row. -/
def sampleOnlyData1 : List Row := List.replicate 100 numRow ++ [numRow]

/-- The same first 100 numeric rows followed by one extra string row. -/
def sampleOnlyData2 : List Row := List.replicate 100 numRow ++ [strRow]

/-- Two rows over columns `x` (one value missing) and `y`. -/
def missingDemoData : List Row :=
  [[("x", JSValue.num 1), ("y", JSValue.str "u")],
   [("x", JSValue.null), ("y", JSValue.str "v")]]

/-! Theorems. -/

/-- C5: for every dataset and column, `calculateStatistics` returns `null`
(`none`) exactly when the column has zero values passing the numeric
filter; in particular it never raises on an all-missing column. -/
theorem calculateStatistics_none_iff (data : List Row) (column : String) :
    calculateStatistics data column = none ↔ numericValues data column = [] := by
  by_cases h : numericValues data column = []
  · simp [calculateStatistics, h]
  · have hlen : (numericValues data column).length ≠ 0 := by
      simpa [List.length_eq_zero] using h
    simp [calculateStatistics, hlen, h]

/-- C6: the EDA computations are deterministic: two invocations of
`calculateStatistics`, `getUniqueCount` and `calculateCorrelation` on
identical datasets and identical column arguments return equal outputs. -/
theorem eda_rerun_deterministic (d1 d2 : List Row) (column c1 c2 : String)
    (h : d1 = d2) :
    calculateStatistics d1 column = calculateStatistics d2 column ∧
    getUniqueCount d1 column = getUniqueCount d2 column ∧
    calculateCorrelation d1 c1 c2 = calculateCorrelation d2 c1 c2 := by
  subst h
  exact ⟨rfl, rfl, rfl⟩

/-- Witness for C6 at a concrete dataset. -/
theorem eda_rerun_deterministic_witness :
    calculateStatistics twoNumData "x" = calculateStatistics twoNumData "x" ∧
    getUniqueCount twoNumData "x" = getUniqueCount twoNumData "x" ∧
    calculateCorrelation twoNumData "x" "y" = calculateCorrelation twoNumData "x" "y" :=
  eda_rerun_deterministic twoNumData twoNumData "x" "x" "y" rfl

/-- C7: the reported `shape.rows` equals the number of parsed data rows,
each column's missing-value count is at most that row count, and the
aggregate `missingValues` is at most `rows * columns`. -/
theorem parseResult_shape_and_missing (data : List Row) (columns : List String) :
    (parseResult data columns).shape.1 = data.length ∧
    (∀ c ∈ columns, missingCount data c ≤ data.length) ∧
    (parseResult data columns).missingValues ≤ data.length * columns.length := by
  refine ⟨rfl, fun c _ => List.length_filter_le _ _, ?_⟩
  show totalMissing data columns ≤ data.length * columns.length
  induction columns with
  | nil => simp [totalMissing]
  | cons c cs ih =>
      have h1 : missingCount data c ≤ data.length := List.length_filter_le _ _
      calc totalMissing data (c :: cs)
          = missingCount data c + totalMissing data cs := by
            simp [totalMissing]
        _ ≤ data.length + data.length * cs.length := Nat.add_le_add h1 ih
        _ = data.length * (c :: cs).length := by
            simp [List.length_cons, Nat.mul_add, Nat.mul_one, Nat.add_comm]

/-- Witness for C7 at a concrete dataset with one missing cell. -/
theorem parseResult_shape_and_missing_witness :
    (parseResult missingDemoData ["x", "y"]).shape.1 = 2 ∧
    missingCount missingDemoData "x" ≤ 2 ∧
    (parseResult missingDemoData ["x", "y"]).missingValues ≤ 2 * 2 := by
  obtain ⟨h1, h2, h3⟩ := parseResult_shape_and_missing missingDemoData ["x", "y"]
  exact ⟨h1, h2 "x" (by simp), h3⟩

/-- C8: a column whose bounded sample of non-missing values is empty is
classified as `categorical`. -/
theorem inferDtype_empty_sample (data : List Row) (col : String)
    (h : sampleValues data col = []) : inferDtype data col = "categorical" := by
  simp [inferDtype, h]

/-- Witness for C8: a column holding only `null` defaults to categorical. -/
theorem inferDtype_empty_sample_witness :
    inferDtype allNullData "x" = "categorical" :=
  inferDtype_empty_sample allNullData "x" (by decide)

/-- C9: dtype inference is a pure function of the first 100 rows: two
datasets that agree on their first 100 rows produce identical `dtypes`
mappings for any column list. -/
theorem dtypes_depend_only_on_sample (d1 d2 : List Row) (columns : List String)
    (h : d1.take 100 = d2.take 100) :
    (parseResult d1 columns).dtypes = (parseResult d2 columns).dtypes := by
  have hs : ∀ c, sampleValues d1 c = sampleValues d2 c := fun c => by
    unfold sampleValues
    rw [h]
  have hi : ∀ c, inferDtype d1 c = inferDtype d2 c := fun c => by
    unfold inferDtype
    rw [hs c]
  simp [parseResult, hi]

/-- Witness for C9: two 101-row datasets that differ only in row 101 (a
number vs a string) get the same inferred dtypes. -/
theorem dtypes_depend_only_on_sample_witness :
    (parseResult sampleOnlyData1 ["x"]).dtypes
      = (parseResult sampleOnlyData2 ["x"]).dtypes := by
  refine dtypes_depend_only_on_sample sampleOnlyData1 sampleOnlyData2 ["x"] ?_
  show (List.replicate 100 numRow ++ [numRow]).take 100
      = (List.replicate 100 numRow ++ [strRow]).take 100
  rw [List.take_append_of_le_length (by simp),
    List.take_append_of_le_length (by simp)]

/-- Helper: a `getD` at an in-range index is an element of the list. -/
theorem getD_mem_of_lt (l : List ℚ) (i : Nat) (h : i < l.length) :
    l.getD i 0 ∈ l := by
  rw [List.getD_eq_getElem l 0 h]
  exact List.getElem_mem h

/-- Helper: the first entry of a sorted list is a lower bound. -/
theorem sorted_getD_zero_le (s : List ℚ) (hs : List.Sorted (· ≤ ·) s) :
    ∀ v ∈ s, s.getD 0 0 ≤ v := by
  intro v hv
  cases s with
  | nil => cases hv
  | cons x t =>
      rw [List.sorted_cons] at hs
      simp only [List.getD_cons_zero]
      rcases List.mem_cons.mp hv with rfl | h
      · exact le_refl v
      · exact hs.1 v h

/-- Helper: the last entry of a sorted list is an upper bound. -/
theorem sorted_le_getD_last (s : List ℚ) (hs : List.Sorted (· ≤ ·) s) :
    ∀ v ∈ s, v ≤ s.getD (s.length - 1) 0 := by
  induction s with
  | nil => intro v hv; cases hv
  | cons x t ih =>
      intro v hv
      rw [List.sorted_cons] at hs
      cases t with
      | nil =>
          rcases List.mem_cons.mp hv with rfl | h
          · simp
          · cases h
      | cons y t' =>
          have hstep : (x :: y :: t').getD ((x :: y :: t').length - 1) 0
              = (y :: t').getD ((y :: t').length - 1) 0 := by
            have h1 : (x :: y :: t').length - 1 = ((y :: t').length - 1) + 1 := by
              simp [List.length_cons]
            rw [h1, List.getD_cons_succ]
          rw [hstep]
          rcases List.mem_cons.mp hv with rfl | h
          · have hmem : (y :: t').getD ((y :: t').length - 1) 0 ∈ y :: t' :=
              getD_mem_of_lt _ _ (by simp)
            exact hs.1 _ hmem
          · exact ih hs.2 v h

/-- C2 counterexample: in `mixedColData` the sampled values of column `x`
are the number `1` followed by the string `a`; the column is classified
`numeric` although not all sampled values are numeric, refuting the
"if and only if all sampled values are numeric" reading. -/
theorem inferDtype_counterexample :
    inferDtype mixedColData "x" = "numeric" ∧
    JSValue.str "a" ∈ sampleValues mixedColData "x" ∧
    isNumberType (JSValue.str "a") = false := by
  decide

/-- C2 (amended): when the bounded sample of non-missing values is
non-empty, the column is classified `numeric` exactly when the FIRST
sampled value has JS type number; later sampled values do not influence
the classification. -/
theorem inferDtype_first_sample (data : List Row) (col : String)
    (v : JSValue) (rest : List JSValue)
    (h : sampleValues data col = v :: rest) :
    inferDtype data col = "numeric" ↔ isNumberType v = true := by
  cases hv : isNumberType v with
  | true => simp [inferDtype, h, hv]
  | false =>
      simp only [inferDtype, h, hv, if_neg Bool.false_ne_true]
      constructor
      · intro hcontra
        exact absurd hcontra (by decide)
      · intro hcontra
        exact absurd hcontra (by decide)

/-- Witness for C2 at the concrete mixed column. -/
theorem inferDtype_first_sample_witness :
    inferDtype mixedColData "x" = "numeric" ↔
      isNumberType (JSValue.num 1) = true :=
  inferDtype_first_sample mixedColData "x" (JSValue.num 1) [JSValue.str "a"]
    (by decide)

/-- C4 counterexample: for the column `x` of `twoNumData` (values `1, 2`)
the code reports median `2` (the element at index `floor(n/2)` of the
sorted values), while the 50th percentile of those values is `3/2`. -/
theorem calculateStatistics_median_counterexample :
    (calculateStatistics twoNumData "x").map Stats.median = some 2 ∧
    median50Spec (numericValues twoNumData "x") = 3 / 2 ∧
    (2 : ℚ) ≠ 3 / 2 := by
  have hval : numericValues twoNumData "x" = [1, 2] := by decide
  have hsort : List.insertionSort (fun a b => a ≤ b) ([1, 2] : List ℚ) = [1, 2] := by
    decide
  refine ⟨by decide, ?_, by norm_num⟩
  simp only [median50Spec, hval, hsort]
  norm_num [List.getD_cons_zero, List.getD_cons_succ]

/-- C4 (amended): for a column with at least one finite numeric value,
`calculateStatistics` returns `count` equal to the number of such values,
`mean` their arithmetic mean, `min` / `max` a least / greatest such value,
`std` the square root of the mean squared deviation, and `median` the
element at index `floor(count / 2)` of the ascending sorted values (the
upper of the two middle elements when the count is even). -/
theorem calculateStatistics_fields (data : List Row) (column : String)
    (h : numericValues data column ≠ []) :
    ∃ s, calculateStatistics data column = some s ∧
      s.count = (numericValues data column).length ∧
      s.mean = (numericValues data column).sum /
        ((numericValues data column).length : ℚ) ∧
      s.min ∈ numericValues data column ∧
      (∀ v ∈ numericValues data column, s.min ≤ v) ∧
      s.max ∈ numericValues data column ∧
      (∀ v ∈ numericValues data column, v ≤ s.max) ∧
      s.median ∈ numericValues data column ∧
      s.median = ((numericValues data column).insertionSort (· ≤ ·)).getD
        ((numericValues data column).length / 2) 0 ∧
      s.std = Real.sqrt
        ((((numericValues data column).map (fun v => (v - s.mean) ^ 2)).sum /
          ((numericValues data column).length : ℚ) : ℚ)) := by
  have hlen0 : (numericValues data column).length ≠ 0 := by
    simpa [List.length_eq_zero] using h
  have hpos : 0 < (numericValues data column).length := Nat.pos_of_ne_zero hlen0
  have hperm : List.Perm ((numericValues data column).insertionSort (· ≤ ·))
      (numericValues data column) := List.perm_insertionSort _ _
  have hsort : List.Sorted (· ≤ ·)
      ((numericValues data column).insertionSort (· ≤ ·)) :=
    List.sorted_insertionSort _ _
  have hslen : ((numericValues data column).insertionSort (· ≤ ·)).length
      = (numericValues data column).length := hperm.length_eq
  have hspos : 0 < ((numericValues data column).insertionSort (· ≤ ·)).length := by
    rw [hslen]; exact hpos
  refine ⟨{ count := (numericValues data column).length
            mean := (numericValues data column).sum /
              ((numericValues data column).length : ℚ)
            median := ((numericValues data column).insertionSort (· ≤ ·)).getD
              ((((numericValues data column).insertionSort (· ≤ ·)).length) / 2) 0
            min := ((numericValues data column).insertionSort (· ≤ ·)).getD 0 0
            max := ((numericValues data column).insertionSort (· ≤ ·)).getD
              ((((numericValues data column).insertionSort (· ≤ ·)).length) - 1) 0
            std := Real.sqrt ((((numericValues data column).map
              (fun v => (v - (numericValues data column).sum /
                ((numericValues data column).length : ℚ)) ^ 2)).sum /
              ((numericValues data column).length : ℚ) : ℚ)) },
    ?_, rfl, rfl, ?_, ?_, ?_, ?_, ?_, ?_, rfl⟩
  · simp only [calculateStatistics, if_neg hlen0]
  · exact hperm.subset (getD_mem_of_lt _ _ hspos)
  · intro v hv
    exact sorted_getD_zero_le _ hsort v (hperm.mem_iff.mpr hv)
  · exact hperm.subset (getD_mem_of_lt _ _ (by omega))
  · intro v hv
    exact sorted_le_getD_last _ hsort v (hperm.mem_iff.mpr hv)
  · refine hperm.subset (getD_mem_of_lt _ _ ?_)
    exact Nat.div_lt_self hspos (by norm_num)
  · rw [hslen]

/-- Witness for C4 at the concrete two-value column. -/
theorem calculateStatistics_fields_witness :
    ∃ s, calculateStatistics twoNumData "x" = some s ∧
      s.count = (numericValues twoNumData "x").length ∧
      s.mean = (numericValues twoNumData "x").sum /
        ((numericValues twoNumData "x").length : ℚ) ∧
      s.min ∈ numericValues twoNumData "x" ∧
      (∀ v ∈ numericValues twoNumData "x", s.min ≤ v) ∧
      s.max ∈ numericValues twoNumData "x" ∧
      (∀ v ∈ numericValues twoNumData "x", v ≤ s.max) ∧
      s.median ∈ numericValues twoNumData "x" ∧
      s.median = ((numericValues twoNumData "x").insertionSort (· ≤ ·)).getD
        ((numericValues twoNumData "x").length / 2) 0 ∧
      s.std = Real.sqrt
        ((((numericValues twoNumData "x").map (fun v => (v - s.mean) ^ 2)).sum /
          ((numericValues twoNumData "x").length : ℚ) : ℚ)) :=
  calculateStatistics_fields twoNumData "x" (by decide)

/-- Helper: a list sum of products of an entry with itself is nonnegative. -/
theorem listSum_mul_self_nonneg {α : Type} (l : List α) (f : α → ℚ) :
    0 ≤ (l.map (fun a => f a * f a)).sum := by
  apply List.sum_nonneg
  intro x hx
  obtain ⟨a, _, rfl⟩ := List.mem_map.mp hx
  exact mul_self_nonneg _

/-- Helper: the Cauchy-Schwarz inequality for list sums, by induction. -/
theorem list_cauchy_schwarz {α : Type} (l : List α) (f g : α → ℚ) :
    ((l.map (fun a => f a * g a)).sum) ^ 2 ≤
      (l.map (fun a => f a * f a)).sum * (l.map (fun a => g a * g a)).sum := by
  induction l with
  | nil => simp
  | cons a t ih =>
      simp only [List.map_cons, List.sum_cons]
      have hp : 0 ≤ (t.map (fun x => f x * f x)).sum := listSum_mul_self_nonneg t f
      have hq : 0 ≤ (t.map (fun x => g x * g x)).sum := listSum_mul_self_nonneg t g
      rcases eq_or_lt_of_le hq with hq0 | hqpos
      · have hs0 : (t.map (fun x => f x * g x)).sum = 0 := by
          have h1 : ((t.map (fun x => f x * g x)).sum) ^ 2 ≤ 0 := by
            calc ((t.map (fun x => f x * g x)).sum) ^ 2
                ≤ (t.map (fun x => f x * f x)).sum * (t.map (fun x => g x * g x)).sum :=
                  ih
              _ = 0 := by rw [← hq0, mul_zero]
          have h2 := sq_nonneg ((t.map (fun x => f x * g x)).sum)
          exact pow_eq_zero_iff (n := 2) (by norm_num) |>.mp (le_antisymm h1 h2)
        rw [hs0, ← hq0]
        nlinarith [mul_self_nonneg (g a), mul_self_nonneg (f a),
          mul_nonneg hp (mul_self_nonneg (g a))]
      · nlinarith [ih, sq_nonneg (f a * (t.map (fun x => g x * g x)).sum
            - (t.map (fun x => f x * g x)).sum * g a),
          mul_nonneg (le_of_lt hqpos) (sub_nonneg.mpr ih),
          mul_nonneg (mul_self_nonneg (g a)) (sub_nonneg.mpr ih)]

/-- Helper: expanding a sum of centred products into raw sums. -/
theorem listSum_center {α : Type} (l : List α) (f g : α → ℚ) (c d : ℚ) :
    (l.map (fun a => (f a - c) * (g a - d))).sum
      = (l.map (fun a => f a * g a)).sum - d * (l.map f).sum
        - c * (l.map g).sum + (l.length : ℚ) * (c * d) := by
  induction l with
  | nil => simp
  | cons a t ih =>
      simp only [List.map_cons, List.sum_cons, List.length_cons]
      rw [ih]
      push_cast
      ring

/-- Helper: the uncentred sum-of-squares term of the correlation
denominator is nonnegative. -/
theorem corr_var_nonneg (l : List (ℚ × ℚ)) (f : ℚ × ℚ → ℚ)
    (hn : (l.length : ℚ) ≠ 0) :
    0 ≤ (l.map (fun p => f p * f p)).sum
      - (l.map f).sum * (l.map f).sum / (l.length : ℚ) := by
  have hc := listSum_center l f f ((l.map f).sum / (l.length : ℚ))
    ((l.map f).sum / (l.length : ℚ))
  have he : (l.map (fun p => f p * f p)).sum
      - ((l.map f).sum / (l.length : ℚ)) * (l.map f).sum
      - ((l.map f).sum / (l.length : ℚ)) * (l.map f).sum
      + (l.length : ℚ) * (((l.map f).sum / (l.length : ℚ))
          * ((l.map f).sum / (l.length : ℚ)))
      = (l.map (fun p => f p * f p)).sum
        - (l.map f).sum * (l.map f).sum / (l.length : ℚ) := by
    field_simp
    ring
  calc (0 : ℚ)
      ≤ (l.map (fun p => (f p - (l.map f).sum / (l.length : ℚ))
          * (f p - (l.map f).sum / (l.length : ℚ)))).sum :=
        listSum_mul_self_nonneg l _
    _ = _ := by rw [hc, he]

/-- Helper: the correlation numerator squared is at most the product of
the two variance terms (Cauchy-Schwarz, uncentred form). -/
theorem corr_num_sq_le (l : List (ℚ × ℚ)) (hn : (l.length : ℚ) ≠ 0) :
    ((l.map (fun p => p.1 * p.2)).sum
        - (l.map (fun p => p.1)).sum * (l.map (fun p => p.2)).sum
            / (l.length : ℚ)) ^ 2
      ≤ ((l.map (fun p => p.1 * p.1)).sum
          - (l.map (fun p => p.1)).sum * (l.map (fun p => p.1)).sum
              / (l.length : ℚ))
        * ((l.map (fun p => p.2 * p.2)).sum
          - (l.map (fun p => p.2)).sum * (l.map (fun p => p.2)).sum
              / (l.length : ℚ)) := by
  have hcs := list_cauchy_schwarz l
    (fun p => p.1 - (l.map (fun p => p.1)).sum / (l.length : ℚ))
    (fun p => p.2 - (l.map (fun p => p.2)).sum / (l.length : ℚ))
  rw [listSum_center l (fun p => p.1) (fun p => p.2),
    listSum_center l (fun p => p.1) (fun p => p.1),
    listSum_center l (fun p => p.2) (fun p => p.2)] at hcs
  have e1 : (l.map (fun p => p.1 * p.2)).sum
      - ((l.map (fun p => p.2)).sum / (l.length : ℚ)) * (l.map (fun p => p.1)).sum
      - ((l.map (fun p => p.1)).sum / (l.length : ℚ)) * (l.map (fun p => p.2)).sum
      + (l.length : ℚ) * (((l.map (fun p => p.1)).sum / (l.length : ℚ))
          * ((l.map (fun p => p.2)).sum / (l.length : ℚ)))
      = (l.map (fun p => p.1 * p.2)).sum
        - (l.map (fun p => p.1)).sum * (l.map (fun p => p.2)).sum
            / (l.length : ℚ) := by
    field_simp
    ring
  have e2 : (l.map (fun p => p.1 * p.1)).sum
      - ((l.map (fun p => p.1)).sum / (l.length : ℚ)) * (l.map (fun p => p.1)).sum
      - ((l.map (fun p => p.1)).sum / (l.length : ℚ)) * (l.map (fun p => p.1)).sum
      + (l.length : ℚ) * (((l.map (fun p => p.1)).sum / (l.length : ℚ))
          * ((l.map (fun p => p.1)).sum / (l.length : ℚ)))
      = (l.map (fun p => p.1 * p.1)).sum
        - (l.map (fun p => p.1)).sum * (l.map (fun p => p.1)).sum
            / (l.length : ℚ) := by
    field_simp
    ring
  have e3 : (l.map (fun p => p.2 * p.2)).sum
      - ((l.map (fun p => p.2)).sum / (l.length : ℚ)) * (l.map (fun p => p.2)).sum
      - ((l.map (fun p => p.2)).sum / (l.length : ℚ)) * (l.map (fun p => p.2)).sum
      + (l.length : ℚ) * (((l.map (fun p => p.2)).sum / (l.length : ℚ))
          * ((l.map (fun p => p.2)).sum / (l.length : ℚ)))
      = (l.map (fun p => p.2 * p.2)).sum
        - (l.map (fun p => p.2)).sum * (l.map (fun p => p.2)).sum
            / (l.length : ℚ) := by
    field_simp
    ring
  rw [e1, e2, e3] at hcs
  exact hcs

/-- C3: the coefficient returned by `calculateCorrelation` always lies in
`[-1, 1]` in exact arithmetic, including the guard cases (fewer than two
complete pairs, zero denominator) where the code returns `0`. -/
theorem calculateCorrelation_in_unit_interval (data : List Row) (col1 col2 : String) :
    -1 ≤ calculateCorrelation data col1 col2 ∧
      calculateCorrelation data col1 col2 ≤ 1 := by
  rw [← abs_le]
  simp only [calculateCorrelation]
  by_cases hlt : (pairsOf data col1 col2).length < 2
  · simp [hlt]
  · rw [if_neg hlt]
    set ps := pairsOf data col1 col2 with hps
    have hn : ((ps.length : ℚ)) ≠ 0 := by
      have h2 : 2 ≤ ps.length := Nat.le_of_not_lt hlt
      exact Nat.cast_ne_zero.mpr (by omega)
    set D1 : ℚ := (ps.map (fun p => p.1 * p.1)).sum
      - (ps.map (fun p => p.1)).sum * (ps.map (fun p => p.1)).sum
          / (ps.length : ℚ) with hD1
    set D2 : ℚ := (ps.map (fun p => p.2 * p.2)).sum
      - (ps.map (fun p => p.2)).sum * (ps.map (fun p => p.2)).sum
          / (ps.length : ℚ) with hD2
    set numer : ℚ := (ps.map (fun p => p.1 * p.2)).sum
      - (ps.map (fun p => p.1)).sum * (ps.map (fun p => p.2)).sum
          / (ps.length : ℚ) with hnumer
    by_cases hden : Real.sqrt ((D1 * D2 : ℚ) : ℝ) = 0
    · rw [if_pos hden]
      norm_num
    · rw [if_neg hden]
      have hD1n : 0 ≤ D1 := corr_var_nonneg ps (fun p => p.1) hn
      have hD2n : 0 ≤ D2 := corr_var_nonneg ps (fun p => p.2) hn
      have hcs : numer ^ 2 ≤ D1 * D2 := corr_num_sq_le ps hn
      have hpos : 0 < Real.sqrt ((D1 * D2 : ℚ) : ℝ) :=
        lt_of_le_of_ne (Real.sqrt_nonneg _) (Ne.symm hden)
      rw [abs_div, abs_of_pos hpos, div_le_one hpos]
      calc |((numer : ℚ) : ℝ)|
          = Real.sqrt (((numer : ℚ) : ℝ) ^ 2) := (Real.sqrt_sq_eq_abs _).symm
        _ ≤ Real.sqrt ((D1 * D2 : ℚ) : ℝ) := Real.sqrt_le_sqrt (by exact_mod_cast hcs)

/-- Helper: swapping the two column arguments swaps each complete pair. -/
theorem pairsOf_swap (data : List Row) (a b : String) :
    pairsOf data b a = (pairsOf data a b).map Prod.swap := by
  induction data with
  | nil => rfl
  | cons r t ih =>
      simp only [pairsOf, List.filterMap_cons] at ih ⊢
      cases rowGet r a <;> cases rowGet r b <;> simp_all [Prod.swap]

/-- Helper: `calculateCorrelation` is symmetric in its column arguments. -/
theorem calculateCorrelation_comm (data : List Row) (a b : String) :
    calculateCorrelation data a b = calculateCorrelation data b a := by
  simp only [calculateCorrelation, pairsOf_swap data a b, List.length_map]
  by_cases hlt : (pairsOf data a b).length < 2
  · simp [hlt]
  · rw [if_neg hlt, if_neg hlt]
    set ps := pairsOf data a b with hps
    have h1 : ((ps.map Prod.swap).map (fun p => p.1)).sum
        = (ps.map (fun p => p.2)).sum := by
      rw [List.map_map]
      rfl
    have h2 : ((ps.map Prod.swap).map (fun p => p.2)).sum
        = (ps.map (fun p => p.1)).sum := by
      rw [List.map_map]
      rfl
    have h11 : ((ps.map Prod.swap).map (fun p => p.1 * p.1)).sum
        = (ps.map (fun p => p.2 * p.2)).sum := by
      rw [List.map_map]
      rfl
    have h22 : ((ps.map Prod.swap).map (fun p => p.2 * p.2)).sum
        = (ps.map (fun p => p.1 * p.1)).sum := by
      rw [List.map_map]
      rfl
    have h12 : ((ps.map Prod.swap).map (fun p => p.1 * p.2)).sum
        = (ps.map (fun p => p.1 * p.2)).sum := by
      rw [List.map_map]
      exact congrArg List.sum (List.map_congr_left (fun p _ => mul_comm p.2 p.1))
    rw [h1, h2, h11, h22, h12]
    have hnum : (ps.map (fun p => p.1 * p.2)).sum
        - (ps.map (fun p => p.1)).sum * (ps.map (fun p => p.2)).sum
            / (ps.length : ℚ)
        = (ps.map (fun p => p.1 * p.2)).sum
          - (ps.map (fun p => p.2)).sum * (ps.map (fun p => p.1)).sum
              / (ps.length : ℚ) := by ring
    have hden : ((ps.map (fun p => p.1 * p.1)).sum
          - (ps.map (fun p => p.1)).sum * (ps.map (fun p => p.1)).sum
              / (ps.length : ℚ))
        * ((ps.map (fun p => p.2 * p.2)).sum
          - (ps.map (fun p => p.2)).sum * (ps.map (fun p => p.2)).sum
              / (ps.length : ℚ))
        = ((ps.map (fun p => p.2 * p.2)).sum
          - (ps.map (fun p => p.2)).sum * (ps.map (fun p => p.2)).sum
              / (ps.length : ℚ))
        * ((ps.map (fun p => p.1 * p.1)).sum
          - (ps.map (fun p => p.1)).sum * (ps.map (fun p => p.1)).sum
              / (ps.length : ℚ)) := by ring
    rw [hnum, hden]

/-- C10: `calculateCorrelation` is symmetric in its column arguments:
`calculateCorrelation(data, a, b)` equals `calculateCorrelation(data, b, a)`
for every dataset and every pair of columns. -/
theorem calculateCorrelation_symm (data : List Row) (a b : String) :
    calculateCorrelation data a b = calculateCorrelation data b a :=
  calculateCorrelation_comm data a b

/-- Helper: the list sum of a constant-valued function. -/
theorem listSum_const {α : Type} (l : List α) (f : α → ℚ) (k : ℚ)
    (h : ∀ a ∈ l, f a = k) : (l.map f).sum = (l.length : ℚ) * k := by
  induction l with
  | nil => simp
  | cons a t ih =>
      simp only [List.map_cons, List.sum_cons, List.length_cons]
      rw [h a (List.mem_cons_self a t),
        ih (fun x hx => h x (List.mem_cons_of_mem a hx))]
      push_cast
      ring

/-- Helper: when the first column is constant over the complete pairs,
the denominator of `calculateCorrelation` is zero and the guard returns
`0`. -/
theorem corr_fst_const (data : List Row) (col1 col2 : String) (k : ℚ)
    (h : ∀ p ∈ pairsOf data col1 col2, p.1 = k) :
    calculateCorrelation data col1 col2 = 0 := by
  simp only [calculateCorrelation]
  by_cases hlt : (pairsOf data col1 col2).length < 2
  · simp [hlt]
  · rw [if_neg hlt]
    set ps := pairsOf data col1 col2 with hps
    have hn : ((ps.length : ℚ)) ≠ 0 := by
      have h2 : 2 ≤ ps.length := Nat.le_of_not_lt hlt
      exact Nat.cast_ne_zero.mpr (by omega)
    have hsum : (ps.map (fun p => p.1)).sum = (ps.length : ℚ) * k :=
      listSum_const ps (fun p => p.1) k h
    have hsumSq : (ps.map (fun p => p.1 * p.1)).sum = (ps.length : ℚ) * (k * k) :=
      listSum_const ps (fun p => p.1 * p.1) (k * k) (fun p hp => by
        show p.1 * p.1 = k * k
        rw [h p hp])
    have hD1 : (ps.map (fun p => p.1 * p.1)).sum
        - (ps.map (fun p => p.1)).sum * (ps.map (fun p => p.1)).sum
            / (ps.length : ℚ) = 0 := by
      rw [hsum, hsumSq]
      field_simp
      ring
    rw [hD1, zero_mul]
    simp

/-- C1 (amended): when one of the two columns has zero variance over the
complete numeric pairs (all its paired values equal), the `den === 0`
guard of `calculateCorrelation` fires and the function returns the plain
number `0`.  The pair therefore can never be reported with a spurious
coefficient of `1`, but the correlation is reported as `0`, not as an
undefined / not-computable value. -/
theorem calculateCorrelation_zero_variance (data : List Row) (col1 col2 : String)
    (k : ℚ)
    (h : (∀ p ∈ pairsOf data col1 col2, p.1 = k) ∨
      (∀ p ∈ pairsOf data col1 col2, p.2 = k)) :
    calculateCorrelation data col1 col2 = 0 := by
  rcases h with h | h
  · exact corr_fst_const data col1 col2 k h
  · rw [calculateCorrelation_comm]
    apply corr_fst_const data col2 col1 k
    intro p hp
    rw [pairsOf_swap data col1 col2] at hp
    obtain ⟨q, hq, rfl⟩ := List.mem_map.mp hp
    exact h q hq

/-- C1 counterexample: in `zeroVarData` column `a` is constant (zero
variance) over the complete pairs with column `b`, yet
`calculateCorrelation` returns the plain number `0` instead of an
undefined / not-computable result. -/
theorem calculateCorrelation_zero_variance_counterexample :
    pairsOf zeroVarData "a" "b" = [(5, 1), (5, 2)] ∧
    calculateCorrelation zeroVarData "a" "b" = 0 :=
  ⟨by decide, corr_fst_const zeroVarData "a" "b" 5 (by decide)⟩

/-- Witness for C1 at the concrete constant column. -/
theorem calculateCorrelation_zero_variance_witness :
    calculateCorrelation zeroVarData "a" "b" = 0 :=
  calculateCorrelation_zero_variance zeroVarData "a" "b" 5 (Or.inl (by decide))
